import Mathlib

/-
  Verification of the photocard binder application (src/App.tsx).

  The collection state `allCards` of the React component `BinderApp` is a
  JavaScript array of image data-URL strings or nulls.  We embed it as
  `List (Option ImageRef)` with `ImageRef := String`.  Each structural
  operation on the collection (batch upload, single-slot upload, removal,
  the swap performed on drag release, page slicing) is translated from the
  corresponding handler in src/App.tsx.  The drag gesture handlers are
  embedded as an explicit event-driven state machine, and the export
  pipeline as a pure loop over an injected rasterization capability.
-/

namespace Photocard

/-- An opaque image reference (a data URL string in the source). -/
abbrev ImageRef := String

/-- The collection state: `allCards : (string | null)[]` in the source. -/
abbrev Cards := List (Option ImageRef)

/-- Source constant `ITEMS_PER_PAGE = 9` (src/App.tsx line 212). -/
def ITEMS_PER_PAGE : Nat := 9

/-- Source: `totalPages = Math.max(1, Math.ceil(allCards.length / ITEMS_PER_PAGE))`
(src/App.tsx line 213).  For natural `n`, `Math.ceil(n / 9) = (n + 8) / 9`. -/
def totalPages (allCards : Cards) : Nat :=
  max 1 ((allCards.length + (ITEMS_PER_PAGE - 1)) / ITEMS_PER_PAGE)

/-- Source: `getCardsForPage` (src/App.tsx lines 242-247): slice
`[pageIdx*9, pageIdx*9+9)` out of `allCards` and right-pad with nulls to 9. -/
def getCardsForPage (allCards : Cards) (pageIdx : Nat) : Cards :=
  let pageCards := (allCards.drop (pageIdx * ITEMS_PER_PAGE)).take ITEMS_PER_PAGE
  pageCards ++ List.replicate (ITEMS_PER_PAGE - pageCards.length) none

/-- Source: the `setAllCards` updater of `handleBatchUpload`
(src/App.tsx lines 251-276).  The handler returns early when the file list is
empty; otherwise it filters out ALL nulls from the previous array
(`prev.filter(c => c !== null)`) and appends the freshly read images in order. -/
def handleBatchUpload (prev : Cards) (newPhotos : List ImageRef) : Cards :=
  if newPhotos.isEmpty then prev
  else prev.filter (fun c => c.isSome) ++ newPhotos.map some

/-- Source: the `setAllCards` updater of `handleSingleUploadChange`
(src/App.tsx lines 286-296): pad with nulls up to `targetIndex`, then write. -/
def handleSingleUpload (prev : Cards) (targetIndex : Nat) (img : ImageRef) : Cards :=
  let updated := prev ++ List.replicate (targetIndex + 1 - prev.length) none
  updated.set targetIndex (some img)

/-- Source: the `setAllCards` updater of `removeCard` (src/App.tsx lines
426-437): `updated.splice(globalIndex, 1)` where
`globalIndex = currentPage * 9 + indexOnPage` is a non-negative integer.
JavaScript splice at an index at or past the end removes nothing. -/
def removeCard (prev : Cards) (globalIndex : Nat) : Cards :=
  prev.take globalIndex ++ prev.drop (globalIndex + 1)

/-- The error taxonomy of the specification for structural mutations. -/
inductive CollectionError where
  | outOfRange
deriving DecidableEq, Repr

/-- The removal operation of the source, embedded with an error-capable
result type: `removeCard` in src/App.tsx has no failure path at all (no
guard, no throw), so every call returns `Except.ok` of the spliced array. -/
def removeCardE (prev : Cards) (globalIndex : Nat) : Except CollectionError Cards :=
  Except.ok (removeCard prev globalIndex)

/-- Modelled from the spec: `removeAt(index)` as section 4.1 describes it,
requiring `0 <= index < length` and failing with `OutOfRange` otherwise.
Stated only for comparison with the behaviour of the source. -/
def removeAtSpec (prev : Cards) (index : Nat) : Except CollectionError Cards :=
  if index < prev.length then Except.ok (removeCard prev index)
  else Except.error CollectionError.outOfRange

/-- Source: the extension loop of the `endDrag` swap updater
(src/App.tsx line 395): `while (updated.length <= maxIndex) updated.push(null)`. -/
def extendTo (cards : Cards) (maxIndex : Nat) : Cards :=
  cards ++ List.replicate (maxIndex + 1 - cards.length) none

/-- Source: the three-assignment swap of the `endDrag` updater
(src/App.tsx lines 392-400), after the extension loop: save
`temp = updated[source]`, copy `updated[target]` into `updated[source]`,
write `temp` into `updated[target]`. -/
def swapRaw (source target : Nat) (cards : Cards) : Cards :=
  let u := extendTo cards (max source target)
  (u.set source (u.getD target none)).set target (u.getD source none)

/-- Source: the trailing-null trimming loop of the `endDrag` updater
(src/App.tsx lines 404-405): pop while the last entry is null; that is,
drop the maximal all-null tail. -/
def trimTrailing (cards : Cards) : Cards :=
  (cards.reverse.dropWhile (fun x => x.isNone)).reverse

/-- Source: the whole `setAllCards` updater run by `endDrag` on a successful
hit test with `target` distinct from `source` (src/App.tsx lines 390-408):
extend, swap the two entries, trim trailing nulls. -/
def swapOp (source target : Nat) (cards : Cards) : Cards :=
  trimTrailing (swapRaw source target cards)

/-- Decides invariant I2 for a collection value: the last slot, when the
collection is nonempty, holds a present image (no trailing empty run). -/
def lastFilled (cards : Cards) : Bool :=
  match cards.reverse.head? with
  | none => true
  | some x => x.isSome

/-- A concrete 20-slot collection used to instantiate scenario theorems. -/
def binder20 : Cards := List.replicate 20 (some "x")

/-- Result of one rasterization request: the encoded image on success, or
the thrown error (source: `await window.html2canvas(...)`, lines 460-466). -/
abbrev RasterResult := Except String ImageRef

/-- Source: the `for` loop of `handleGenerateAll` (src/App.tsx lines
456-469).  Pages are processed strictly in order; a page whose export ref
is not materialized (`if (element)`) is skipped; the first rasterization
error aborts the whole loop (the exception propagates out of the `try`). -/
def exportLoop (raster : Nat → RasterResult) (elem : Nat → Bool) :
    List Nat → Except String (List ImageRef)
  | [] => Except.ok []
  | i :: rest =>
    if elem i then
      match raster i with
      | Except.error e => Except.error e
      | Except.ok img =>
        match exportLoop raster elem rest with
        | Except.error e => Except.error e
        | Except.ok imgs => Except.ok (img :: imgs)
    else exportLoop raster elem rest

/-- Source: `handleGenerateAll` (src/App.tsx lines 441-477), returning the
value held by `generatedImages` after the handler finishes.  The guards are
the `window.html2canvas` availability check and the empty-collection check;
on a rasterization error the `catch` branch runs and `setGeneratedImages`
is never called, so the previous value persists. -/
def handleGenerateAll (hasH2C : Bool) (raster : Nat → RasterResult) (elem : Nat → Bool)
    (allCards : Cards) (generatedImages : List ImageRef) : List ImageRef :=
  if hasH2C = false then generatedImages
  else if allCards.length = 0 then generatedImages
  else
    match exportLoop raster elem (List.range (totalPages allCards)) with
    | Except.ok images => images
    | Except.error _ => generatedImages

/-- Source: the `dragState` React state (src/App.tsx lines 28-34, 196-198). -/
structure DragState where
  isDragging : Bool
  draggedIndex : Option Nat
  draggedData : Option ImageRef
  x : Int
  y : Int
deriving DecidableEq, Repr

/-- The reset value of `dragState` (src/App.tsx lines 197, 411). -/
def idleDragState : DragState :=
  { isDragging := false, draggedIndex := none, draggedData := none, x := 0, y := 0 }

/-- The mutable state touched by the drag gesture handlers: the `dragState`
React state, the `touchTimerRef`, `dragStartPosRef` and `isDraggingRef`
refs, the values captured by the pending long-press timer closure, and the
component state the handlers read (`isPreviewMode`, `currentPage`,
`allCards`). -/
structure GestureState where
  dragState : DragState
  timerPending : Bool
  startX : Int
  startY : Int
  pendingIndex : Nat
  pendingX : Int
  pendingY : Int
  isDraggingRef : Bool
  isPreviewMode : Bool
  currentPage : Nat
  allCards : Cards
deriving DecidableEq, Repr

/-- The component state at mount, in edit mode, for a given collection. -/
def initGesture (cards : Cards) : GestureState :=
  { dragState := idleDragState, timerPending := false, startX := 0, startY := 0,
    pendingIndex := 0, pendingX := 0, pendingY := 0, isDraggingRef := false,
    isPreviewMode := false, currentPage := 0, allCards := cards }

/-- The long-press delay passed to `setTimeout` (src/App.tsx line 318). -/
def LONG_PRESS_MS : Nat := 400

/-- The movement cancellation threshold in pixels (src/App.tsx line 339). -/
def MOVE_THRESHOLD : Nat := 10

/-- Source: `startDrag` (src/App.tsx lines 303-319): record the start
coordinates and the global index, and arm the 400 ms long-press timer.  The
timer closure captures the coordinates and the global index. -/
def startDrag (s : GestureState) (clientX clientY : Int) (indexOnPage : Nat) : GestureState :=
  { s with startX := clientX, startY := clientY,
           pendingIndex := s.currentPage * ITEMS_PER_PAGE + indexOnPage,
           pendingX := clientX, pendingY := clientY,
           timerPending := true }

/-- Source: the body of the `setTimeout` callback in `startDrag`
(src/App.tsx lines 308-318), which runs only if the timer was not cleared:
set `isDraggingRef`, and populate `dragState` with the captured index, the
payload read from the collection, and the captured coordinates. -/
def fireTimer (s : GestureState) : GestureState :=
  if s.timerPending then
    { s with timerPending := false, isDraggingRef := true,
             dragState := { isDragging := true, draggedIndex := some s.pendingIndex,
                            draggedData := s.allCards.getD s.pendingIndex none,
                            x := s.pendingX, y := s.pendingY } }
  else s

/-- Source: `moveDrag` (src/App.tsx lines 332-346): while dragging, update
only the ghost coordinates; before activation, clear the long-press timer
when the pointer strayed more than 10 px from the start on either axis. -/
def moveDrag (s : GestureState) (clientX clientY : Int) : GestureState :=
  if s.isDraggingRef then
    { s with dragState := { s.dragState with x := clientX, y := clientY } }
  else
    if MOVE_THRESHOLD < (clientX - s.startX).natAbs ∨
        MOVE_THRESHOLD < (clientY - s.startY).natAbs then
      { s with timerPending := false }
    else s

/-- Source: `endDrag` (src/App.tsx lines 359-414): clear the timer; if a
drag was active, drop the dragging flags, hit-test the release point (the
DOM lookup is abstracted by the `hit` argument carrying the slot index
found, if any), swap when the target differs from the source, and reset
`dragState`.  The release coordinates only feed the hit test. -/
def endDrag (s : GestureState) (clientX clientY : Int) (hit : Option Nat) : GestureState :=
  if s.isPreviewMode then s
  else
    let s1 := { s with timerPending := false }
    if s1.isDraggingRef then
      let s2 := { s1 with isDraggingRef := false,
                          dragState := { s1.dragState with isDragging := false } }
      let s3 :=
        match hit, s2.dragState.draggedIndex with
        | some target, some source =>
          if target ≠ source then { s2 with allCards := swapOp source target s2.allCards }
          else s2
        | _, _ => s2
      { s3 with dragState := idleDragState }
    else s1

/-- The pointer and timer events a gesture run is made of.  Touch and mouse
coordinates are already normalized to client coordinates by the handlers. -/
inductive GEvent where
  | touchStart (x y : Int) (indexOnPage : Nat)
  | mouseDown (x y : Int) (indexOnPage : Nat)
  | touchMove (x y : Int)
  | mouseMove (x y : Int)
  | timerFire
  | pointerUp (x y : Int) (hit : Option Nat)
deriving DecidableEq, Repr

/-- Event dispatch, following the JSX wiring (src/App.tsx lines 550-557,
643-650): touch moves always reach `moveDrag` (through `handleTouchMove`),
while mouse moves are dropped unless `isDraggingRef` is set
(`onMouseMove={(e) => isDraggingRef.current && handleMouseMove(e)}`). -/
def step (s : GestureState) (e : GEvent) : GestureState :=
  match e with
  | GEvent.touchStart x y idx => if s.isPreviewMode then s else startDrag s x y idx
  | GEvent.mouseDown x y idx => if s.isPreviewMode then s else startDrag s x y idx
  | GEvent.touchMove x y => if s.isPreviewMode then s else moveDrag s x y
  | GEvent.mouseMove x y =>
      if s.isDraggingRef then (if s.isPreviewMode then s else moveDrag s x y) else s
  | GEvent.timerFire => fireTimer s
  | GEvent.pointerUp x y hit => endDrag s x y hit

/-- A whole gesture run: fold the dispatcher over the event sequence. -/
def runGesture (s : GestureState) (evs : List GEvent) : GestureState :=
  evs.foldl step s

/-- Move events (of either device kind). -/
def isMoveEvent : GEvent → Bool
  | GEvent.touchMove _ _ => true
  | GEvent.mouseMove _ _ => true
  | _ => false

/-- Pointer-down events (of either device kind). -/
def isDownEvent : GEvent → Bool
  | GEvent.touchStart _ _ _ => true
  | GEvent.mouseDown _ _ _ => true
  | _ => false

/-- A concrete 19-slot collection (3 pages: 9+9+1), the spec scenario. -/
def cards19 : Cards := List.replicate 19 (some "x")

/-- A rasterizer that always succeeds with a constant image. -/
def constImg : Nat → ImageRef := fun _ => "img"

/-- The always-succeeding rasterization capability. -/
def okRaster : Nat → RasterResult := fun i => Except.ok (constImg i)

/-- A rasterization capability that throws on page index 2. -/
def failRaster : Nat → RasterResult :=
  fun i => if i = 2 then Except.error "boom" else Except.ok "img"

/-- All export refs materialized (every page element present). -/
def allElems : Nat → Bool := fun _ => true

/-- A gesture run that starts with a touch press, performs some move
events, then a touch move to `(x1, y1)`, then arbitrary further events. -/
def cancelRun (cards : Cards) (x0 y0 x1 y1 : Int) (idx : Nat)
    (pre post : List GEvent) : GestureState :=
  runGesture (initGesture cards)
    (GEvent.touchStart x0 y0 idx :: (pre ++ GEvent.touchMove x1 y1 :: post))

section Helpers

/-- Reading past the end of a collection yields an empty slot. -/
theorem getD_out (l : Cards) (k : Nat) (h : l.length ≤ k) : l.getD k none = none := by
  rw [List.getD_eq_getElem?_getD, List.getElem?_eq_none h]
  rfl

/-- The extension loop changes no slot as read through `getD`. -/
theorem getD_extendTo (cards : Cards) (m k : Nat) :
    (extendTo cards m).getD k none = cards.getD k none := by
  simp only [extendTo, List.getD_eq_getElem?_getD, List.getElem?_append]
  split
  · rfl
  · rename_i h
    rw [List.getElem?_replicate, List.getElem?_eq_none (by omega)]
    split <;> rfl

/-- Length of the extension loop result. -/
theorem length_extendTo (cards : Cards) (m : Nat) :
    (extendTo cards m).length = max cards.length (m + 1) := by
  simp only [extendTo, List.length_append, List.length_replicate]
  omega

/-- Pointwise description of a single in-range array write. -/
theorem getD_set_lt (l : Cards) (i k : Nat) (v : Option ImageRef) (hi : i < l.length) :
    (l.set i v).getD k none = if k = i then v else l.getD k none := by
  simp only [List.getD_eq_getElem?_getD]
  by_cases h : k = i
  · subst h
    rw [List.getElem?_set_self hi]
    simp
  · rw [List.getElem?_set_ne (fun he => h he.symm), if_neg h]

/-- A list whose elements are all `none` reads as `none` everywhere. -/
theorem getD_all_none (t : Cards) (hall : ∀ x ∈ t, x = none) (k : Nat) :
    t.getD k none = none := by
  rw [List.getD_eq_getElem?_getD]
  cases ht : t[k]? with
  | none => rfl
  | some x => exact hall x (List.getElem?_mem ht)

/-- The trimming loop removes an all-empty tail: the original collection is
the trimmed collection followed by a list of empty slots. -/
theorem trimTrailing_decomp (cards : Cards) :
    ∃ t : Cards, cards = trimTrailing cards ++ t ∧ ∀ x ∈ t, x = none := by
  refine ⟨(cards.reverse.takeWhile (fun x => x.isNone)).reverse, ?_, ?_⟩
  · conv_lhs => rw [← List.reverse_reverse cards,
      ← List.takeWhile_append_dropWhile (fun x => x.isNone) cards.reverse]
    rw [List.reverse_append]
    rfl
  · intro x hx
    have hmem := List.mem_reverse.mp hx
    have := List.mem_takeWhile_imp hmem
    cases x with
    | none => rfl
    | some a => simp at this

/-- Trimming changes no slot as read through `getD`. -/
theorem getD_trimTrailing (cards : Cards) (k : Nat) :
    (trimTrailing cards).getD k none = cards.getD k none := by
  obtain ⟨t, hdec, hall⟩ := trimTrailing_decomp cards
  by_cases h : k < (trimTrailing cards).length
  · conv_rhs => rw [hdec]
    simp only [List.getD_eq_getElem?_getD]
    rw [List.getElem?_append_left h]
  · rw [getD_out _ _ (by omega)]
    conv_rhs => rw [hdec]
    simp only [List.getD_eq_getElem?_getD, List.getElem?_append_right (by omega : (trimTrailing cards).length ≤ k)]
    rw [← List.getD_eq_getElem?_getD]
    exact (getD_all_none t hall _).symm

/-- The trimmed collection satisfies invariant I2: no trailing empty slot. -/
theorem lastFilled_trimTrailing (cards : Cards) :
    lastFilled (trimTrailing cards) = true := by
  unfold lastFilled trimTrailing
  rw [List.reverse_reverse]
  have h := List.head?_dropWhile_not (fun x => x.isNone) cards.reverse
  cases hh : (cards.reverse.dropWhile (fun x => x.isNone)).head? with
  | none => rfl
  | some x =>
    rw [hh] at h
    simp only at h
    cases x with
    | none => simp at h
    | some a => rfl

/-- A collection already satisfying I2 is left unchanged by trimming. -/
theorem trimTrailing_eq_self (cards : Cards) (h : lastFilled cards = true) :
    trimTrailing cards = cards := by
  unfold trimTrailing
  unfold lastFilled at h
  cases hr : cards.reverse with
  | nil =>
    have : cards = [] := List.reverse_eq_nil_iff.mp hr
    rw [this]
    rfl
  | cons x xs =>
    rw [hr] at h
    simp only [List.head?] at h
    have hx : x.isNone = false := by
      cases x with
      | none => simp at h
      | some a => rfl
    have h2 : List.dropWhile (fun y => y.isNone) (x :: xs) = x :: xs := by
      rw [List.dropWhile_cons]
      simp [hx]
    rw [h2, ← hr, List.reverse_reverse]

/-- Two collections with no trailing empties that agree slotwise through
`getD` are equal. -/
theorem eq_of_getD_eq (a b : Cards) (ha : lastFilled a = true) (hb : lastFilled b = true)
    (h : ∀ k, a.getD k none = b.getD k none) : a = b := by
  have hlast : ∀ (c : Cards), lastFilled c = true → c ≠ [] →
      ∃ v, c.getD (c.length - 1) none = some v := by
    intro c hc hne
    unfold lastFilled at hc
    rw [List.head?_reverse] at hc
    cases hg : c.getLast? with
    | none =>
      exact absurd (List.getLast?_eq_none_iff.mp hg) hne
    | some x =>
      rw [hg] at hc
      simp only at hc
      cases x with
      | none => simp at hc
      | some v =>
        refine ⟨v, ?_⟩
        rw [List.getD_eq_getElem?_getD, ← List.getLast?_eq_getElem?, hg]
        rfl
  have hlen : a.length = b.length := by
    by_contra hne
    rcases Nat.lt_or_ge a.length b.length with hlt | hge
    · have hbne : b ≠ [] := by
        intro hb0
        rw [hb0] at hlt
        simp at hlt
      obtain ⟨v, hv⟩ := hlast b hb hbne
      have := h (b.length - 1)
      rw [hv, getD_out a _ (by omega)] at this
      exact Option.noConfusion this
    · rcases Nat.lt_or_ge b.length a.length with hlt2 | hge2
      · have hane : a ≠ [] := by
          intro ha0
          rw [ha0] at hlt2
          simp at hlt2
        obtain ⟨v, hv⟩ := hlast a ha hane
        have := h (a.length - 1)
        rw [hv, getD_out b _ (by omega)] at this
        exact Option.noConfusion this
      · omega
  apply List.ext_getElem?
  intro n
  by_cases hn : n < a.length
  · rw [List.getElem?_eq_getElem hn, List.getElem?_eq_getElem (hlen ▸ hn)]
    have := h n
    rw [List.getD_eq_getElem?_getD, List.getD_eq_getElem?_getD,
      List.getElem?_eq_getElem hn, List.getElem?_eq_getElem (hlen ▸ hn)] at this
    simp only [Option.getD_some] at this
    rw [this]
  · rw [List.getElem?_eq_none (by omega), List.getElem?_eq_none (by omega)]

/-- Trimming two slotwise-equal collections gives the same collection. -/
theorem trimTrailing_eq_of_getD_eq (a b : Cards)
    (h : ∀ k, a.getD k none = b.getD k none) :
    trimTrailing a = trimTrailing b := by
  apply eq_of_getD_eq _ _ (lastFilled_trimTrailing a) (lastFilled_trimTrailing b)
  intro k
  rw [getD_trimTrailing, getD_trimTrailing]
  exact h k

/-- Unfolded form of the swap assignments. -/
theorem swapRaw_def (s t : Nat) (c : Cards) :
    swapRaw s t c =
      ((extendTo c (max s t)).set s ((extendTo c (max s t)).getD t none)).set t
        ((extendTo c (max s t)).getD s none) := rfl

/-- Length of the extended-and-swapped array, before trimming. -/
theorem length_swapRaw (s t : Nat) (c : Cards) :
    (swapRaw s t c).length = max c.length (max s t + 1) := by
  rw [swapRaw_def, List.length_set, List.length_set, length_extendTo]

/-- Pointwise description of the swap assignments: position `t` receives
the old content of `s`, position `s` the old content of `t` (positions past
the end of the collection read as empty), everything else is untouched. -/
theorem getD_swapRaw (s t : Nat) (c : Cards) (k : Nat) :
    (swapRaw s t c).getD k none =
      if k = t then c.getD s none
      else if k = s then c.getD t none
      else c.getD k none := by
  have hlu : (extendTo c (max s t)).length = max c.length (max s t + 1) :=
    length_extendTo c (max s t)
  have ht : t < ((extendTo c (max s t)).set s ((extendTo c (max s t)).getD t none)).length := by
    rw [List.length_set, hlu]
    omega
  have hs : s < (extendTo c (max s t)).length := by
    rw [hlu]
    omega
  rw [swapRaw_def, getD_set_lt _ _ _ _ ht]
  by_cases hkt : k = t
  · rw [if_pos hkt, if_pos hkt, getD_extendTo]
  · rw [if_neg hkt, if_neg hkt, getD_set_lt _ _ _ _ hs]
    by_cases hks : k = s
    · rw [if_pos hks, if_pos hks, getD_extendTo]
    · rw [if_neg hks, if_neg hks, getD_extendTo]

end Helpers

/-- C2 (amended): after every swap operation the collection has no
trailing run of empty slots: its last slot, if any, is present.  (The
remove operation performs no trimming; see the counterexample.) -/
theorem swap_preserves_no_trailing (source target : Nat) (c : Cards) :
    lastFilled (swapOp source target c) = true :=
  lastFilled_trimTrailing (swapRaw source target c)

/-- C2 counterexample: removing the last present slot of
`[a, empty, b]` leaves `[a, empty]`, whose last slot is empty — the claim
that every remove strips trailing empties fails on the code, which splices
without trimming. -/
theorem remove_leaves_trailing_counterexample :
    removeCard [some "a", none, some "b"] 2 = [some "a", none] ∧
    lastFilled (removeCard [some "a", none, some "b"] 2) = false := by
  decide

/-- C3 (amended): for an index at or past the length, the removal handler
is a silent no-op: it returns the collection unchanged and signals no
error (the code has no guard and no OutOfRange failure path; negative
indices cannot arise since the global index is a sum of non-negative
terms). -/
theorem remove_out_of_range_silent (prev : Cards) (i : Nat) (h : prev.length ≤ i) :
    removeCardE prev i = Except.ok prev ∧ removeCard prev i = prev := by
  have h2 : removeCard prev i = prev := by
    unfold removeCard
    rw [List.take_of_length_le h, List.drop_eq_nil_of_le (by omega), List.append_nil]
  exact ⟨congrArg Except.ok h2, h2⟩

/-- C3 witness: removing index 3 from a one-slot collection succeeds and
changes nothing. -/
theorem remove_out_of_range_silent_witness :
    ([some "a"] : Cards).length ≤ 3 ∧
    (removeCardE [some "a"] 3 = Except.ok [some "a"] ∧
      removeCard [some "a"] 3 = [some "a"]) :=
  ⟨by decide, remove_out_of_range_silent [some "a"] 3 (by decide)⟩

/-- C3 counterexample: at index 1 of a one-slot collection the code
returns the collection unchanged with no error, while the specified
`removeAt` fails with OutOfRange. -/
theorem remove_no_error_counterexample :
    removeCardE [some "a"] 1 = Except.ok [some "a"] ∧
    removeAtSpec [some "a"] 1 = Except.error CollectionError.outOfRange :=
  ⟨rfl, rfl⟩

/-- C6: swapping the same pair of distinct indices twice restores the
original collection up to trimming of its trailing empties, and restores
it exactly when it had none. -/
theorem swap_twice_restores (c : Cards) (i j : Nat) (hij : i ≠ j) :
    swapOp i j (swapOp i j c) = trimTrailing c ∧
    (lastFilled c = true → swapOp i j (swapOp i j c) = c) := by
  have inner : ∀ m, (swapOp i j c).getD m none =
      if m = j then c.getD i none else if m = i then c.getD j none else c.getD m none := by
    intro m
    unfold swapOp
    rw [getD_trimTrailing, getD_swapRaw]
  have key : ∀ k, (swapRaw i j (swapOp i j c)).getD k none = c.getD k none := by
    intro k
    rw [getD_swapRaw]
    by_cases hkj : k = j
    · rw [if_pos hkj, inner i, if_neg hij, if_pos rfl, hkj]
    · rw [if_neg hkj]
      by_cases hki : k = i
      · rw [if_pos hki, inner j, if_pos rfl, hki]
      · rw [if_neg hki, inner k, if_neg hkj, if_neg hki]
  have h1 : swapOp i j (swapOp i j c) = trimTrailing c :=
    trimTrailing_eq_of_getD_eq (swapRaw i j (swapOp i j c)) c key
  exact ⟨h1, fun h => h1.trans (trimTrailing_eq_self c h)⟩

/-- C6 witness: double swap of indices 0 and 5 on a three-slot collection
with no trailing empties restores it exactly. -/
theorem swap_twice_restores_witness :
    (0 : Nat) ≠ 5 ∧
    (swapOp 0 5 (swapOp 0 5 [some "a", some "b", some "c"]) =
        trimTrailing [some "a", some "b", some "c"] ∧
      (lastFilled [some "a", some "b", some "c"] = true →
        swapOp 0 5 (swapOp 0 5 [some "a", some "b", some "c"]) =
          [some "a", some "b", some "c"])) :=
  ⟨by decide, swap_twice_restores [some "a", some "b", some "c"] 0 5 (by decide)⟩

/-- C7 (amended): a swap of two distinct in-range indices exchanges the
two contents and leaves every other position unchanged, unconditionally
(positions read through getD, a position past the end reading as empty);
the trim is a no-op and the length is unchanged provided the swap leaves
the last slot present (otherwise the trailing trim shrinks the
collection, see the counterexample). -/
theorem swap_exchanges_and_frames (c : Cards) (i j k : Nat)
    (hij : i ≠ j) (hi : i < c.length) (hj : j < c.length) :
    (swapOp i j c).getD i none = c.getD j none ∧
    (swapOp i j c).getD j none = c.getD i none ∧
    (k ≠ i → k ≠ j → (swapOp i j c).getD k none = c.getD k none) ∧
    (lastFilled (swapRaw i j c) = true →
      swapOp i j c = swapRaw i j c ∧ (swapOp i j c).length = c.length) := by
  have hswap : ∀ m, (swapOp i j c).getD m none =
      if m = j then c.getD i none else if m = i then c.getD j none else c.getD m none := by
    intro m
    unfold swapOp
    rw [getD_trimTrailing, getD_swapRaw]
  refine ⟨?_, ?_, ?_, ?_⟩
  · rw [hswap i, if_neg hij, if_pos rfl]
  · rw [hswap j, if_pos rfl]
  · intro hki hkj
    rw [hswap k, if_neg hkj, if_neg hki]
  · intro hkeep
    have heq : swapOp i j c = swapRaw i j c := trimTrailing_eq_self _ hkeep
    refine ⟨heq, ?_⟩
    rw [heq, length_swapRaw]
    omega

/-- C7 witness: the spec scenario, indices 2 and 15 of a 20-slot
collection whose slots are all present. -/
theorem swap_exchanges_and_frames_witness :
    ((2 : Nat) ≠ 15 ∧ 2 < binder20.length ∧ 15 < binder20.length) ∧
    ((swapOp 2 15 binder20).getD 2 none = binder20.getD 15 none ∧
      (swapOp 2 15 binder20).getD 15 none = binder20.getD 2 none ∧
      ((7 : Nat) ≠ 2 → (7 : Nat) ≠ 15 →
        (swapOp 2 15 binder20).getD 7 none = binder20.getD 7 none) ∧
      (lastFilled (swapRaw 2 15 binder20) = true →
        swapOp 2 15 binder20 = swapRaw 2 15 binder20 ∧
        (swapOp 2 15 binder20).length = binder20.length)) :=
  ⟨⟨by decide, by decide, by decide⟩,
    swap_exchanges_and_frames binder20 2 15 7 (by decide) (by decide) (by decide)⟩

/-- C7 counterexample: swapping in-range indices 0 and 1 of `[empty, a]`
(whose last slot is present) moves the empty slot to the tail, the trim
pops it, and the length shrinks from 2 to 1. -/
theorem swap_length_counterexample :
    (0 : Nat) ≠ 1 ∧ 0 < ([none, some "a"] : Cards).length ∧
    1 < ([none, some "a"] : Cards).length ∧
    lastFilled [none, some "a"] = true ∧
    swapOp 0 1 [none, some "a"] = [some "a"] ∧
    (swapOp 0 1 [none, some "a"]).length ≠ ([none, some "a"] : Cards).length := by
  decide

/-- C8: for every collection and every page index, the page view has
exactly 9 slots and equals the slice of global indices
`[p*9, p*9+9)` right-padded with empties; the function is total. -/
theorem getCardsForPage_nine (allCards : Cards) (p k : Nat) :
    (getCardsForPage allCards p).length = 9 ∧
    (getCardsForPage allCards p).getD k none =
      (if k < 9 then allCards.getD (p * 9 + k) none else none) := by
  have hpc : getCardsForPage allCards p =
      (allCards.drop (p * 9)).take 9 ++
        List.replicate (9 - ((allCards.drop (p * 9)).take 9).length) none := rfl
  have hlen : ((allCards.drop (p * 9)).take 9).length = min 9 (allCards.length - p * 9) := by
    rw [List.length_take, List.length_drop]
  constructor
  · rw [hpc, List.length_append, List.length_replicate]
    omega
  · rw [hpc]
    simp only [List.getD_eq_getElem?_getD, List.getElem?_append]
    by_cases hk : k < ((allCards.drop (p * 9)).take 9).length
    · rw [if_pos hk, List.getElem?_take, if_pos (by omega), List.getElem?_drop,
        if_pos (by rw [hlen] at hk; omega)]
    · rw [if_neg hk, List.getElem?_replicate]
      by_cases h9 : k < 9
      · rw [if_pos (by omega), if_pos h9,
          List.getElem?_eq_none (by rw [hlen] at hk; omega)]
        rfl
      · rw [if_neg (by omega), if_neg h9]
        rfl

/-- Helper: filtering the present slots is mapping `some` over the
underlying present images. -/
theorem filter_isSome_eq (l : Cards) :
    l.filter (fun c => c.isSome) = (l.filterMap id).map some := by
  induction l with
  | nil => rfl
  | cons x xs ih =>
    cases x with
    | none =>
      rw [show List.filter (fun c => c.isSome) (none :: xs) =
            List.filter (fun c => c.isSome) xs from rfl,
          show (none :: xs).filterMap id = xs.filterMap id from rfl]
      exact ih
    | some a =>
      rw [show List.filter (fun c => c.isSome) (some a :: xs) =
            some a :: List.filter (fun c => c.isSome) xs from rfl,
          show (some a :: xs).filterMap id = a :: xs.filterMap id from rfl,
          List.map_cons, ih]

/-- C1 (amended): a nonempty batch upload removes every empty slot of the
previous collection (interior ones included), keeps the present images in
their relative order, and appends the new images in order after them; it
never fails. -/
theorem batchUpload_filters_then_appends (prev : Cards) (newPhotos : List ImageRef)
    (k : Nat) (hne : newPhotos ≠ []) :
    handleBatchUpload prev newPhotos = ((prev.filterMap id) ++ newPhotos).map some ∧
    (handleBatchUpload prev newPhotos).length =
      (prev.filterMap id).length + newPhotos.length ∧
    (k < newPhotos.length →
      (handleBatchUpload prev newPhotos).getD ((prev.filterMap id).length + k) none =
        some (newPhotos.getD k "")) := by
  have hemp : newPhotos.isEmpty = false := by
    cases newPhotos with
    | nil => exact absurd rfl hne
    | cons a l => rfl
  have h1 : handleBatchUpload prev newPhotos = ((prev.filterMap id) ++ newPhotos).map some := by
    unfold handleBatchUpload
    rw [hemp]
    simp only [Bool.false_eq_true, if_false]
    rw [filter_isSome_eq, List.map_append]
  refine ⟨h1, ?_, ?_⟩
  · rw [h1, List.length_map, List.length_append]
  · intro hk
    rw [h1, List.getD_eq_getElem?_getD, List.getElem?_map,
      List.getElem?_append_right (Nat.le_add_right _ _)]
    rw [Nat.add_sub_cancel_left, List.getElem?_eq_getElem hk,
      List.getD_eq_getElem?_getD, List.getElem?_eq_getElem hk]
    rfl

/-- C1 witness: batch-appending one image to `[empty, a]`. -/
theorem batchUpload_filters_then_appends_witness :
    (["b"] : List ImageRef) ≠ [] ∧
    (handleBatchUpload [none, some "a"] ["b"] =
        ((([none, some "a"] : Cards).filterMap id) ++ ["b"]).map some ∧
      (handleBatchUpload [none, some "a"] ["b"]).length =
        (([none, some "a"] : Cards).filterMap id).length + (["b"] : List ImageRef).length ∧
      (0 < (["b"] : List ImageRef).length →
        (handleBatchUpload [none, some "a"] ["b"]).getD
            ((([none, some "a"] : Cards).filterMap id).length + 0) none =
          some ((["b"] : List ImageRef).getD 0 ""))) :=
  ⟨by decide, batchUpload_filters_then_appends [none, some "a"] ["b"] 0 (by decide)⟩

/-- C1 counterexample: on `[empty, a]` (no trailing empties to strip) the
batch upload does not merely strip trailing empties and append — it also
deletes the interior empty slot, so position 0 of the original collection
is not preserved. -/
theorem batchUpload_trailing_only_counterexample :
    handleBatchUpload [none, some "a"] ["b"] = [some "a", some "b"] ∧
    trimTrailing [none, some "a"] ++ (["b"] : List ImageRef).map some =
      [none, some "a", some "b"] ∧
    handleBatchUpload [none, some "a"] ["b"] ≠
      trimTrailing [none, some "a"] ++ (["b"] : List ImageRef).map some := by
  decide

/-- C10: every slot of the collection produced by a nonempty batch upload
holds a present image — interior empties of the previous collection are
removed, not only trailing ones. -/
theorem batchUpload_result_all_present (prev : Cards) (newPhotos : List ImageRef)
    (slot : Option ImageRef) (hne : newPhotos ≠ [])
    (hmem : slot ∈ handleBatchUpload prev newPhotos) :
    slot.isSome = true := by
  have hemp : newPhotos.isEmpty = false := by
    cases newPhotos with
    | nil => exact absurd rfl hne
    | cons a l => rfl
  have hdef : handleBatchUpload prev newPhotos =
      prev.filter (fun c => c.isSome) ++ newPhotos.map some := by
    unfold handleBatchUpload
    rw [hemp]
    simp only [Bool.false_eq_true, if_false]
  rw [hdef] at hmem
  rcases List.mem_append.mp hmem with h | h
  · exact List.of_mem_filter h
  · rcases List.mem_map.mp h with ⟨a, _, ha⟩
    rw [← ha]
    rfl

/-- C10 witness: the appended image is a present slot of the result. -/
theorem batchUpload_result_all_present_witness :
    (["b"] : List ImageRef) ≠ [] ∧
    (some "b" : Option ImageRef) ∈ handleBatchUpload [none] ["b"] ∧
    (some "b" : Option ImageRef).isSome = true :=
  ⟨by decide, by decide,
    batchUpload_result_all_present [none] ["b"] (some "b") (by decide) (by decide)⟩

/-- Helper: when every page element is materialized and every
rasterization succeeds, the export loop returns the images in order. -/
theorem exportLoop_ok (raster : Nat → RasterResult) (elem : Nat → Bool)
    (f : Nat → ImageRef) (helem : ∀ i, elem i = true)
    (hraster : ∀ i, raster i = Except.ok (f i)) (l : List Nat) :
    exportLoop raster elem l = Except.ok (l.map f) := by
  induction l with
  | nil => rfl
  | cons i rest ih => simp [exportLoop, helem i, hraster i, ih]

/-- C4: if the export loop fails on some page, `handleGenerateAll` leaves
the exported-images output exactly as it was — no prefix of the pages
rasterized so far is produced as the export result. -/
theorem generateAll_abort_no_result (hasH2C : Bool) (raster : Nat → RasterResult)
    (elem : Nat → Bool) (allCards : Cards) (prev : List ImageRef) (e : String)
    (herr : exportLoop raster elem (List.range (totalPages allCards)) = Except.error e) :
    handleGenerateAll hasH2C raster elem allCards prev = prev := by
  unfold handleGenerateAll
  by_cases h2 : hasH2C = false
  · rw [if_pos h2]
  · rw [if_neg h2]
    by_cases hc : allCards.length = 0
    · rw [if_pos hc]
    · rw [if_neg hc, herr]

/-- C4 witness: the spec scenario — 19 slots (3 pages), rasterization
throws on page index 2, and the export result stays empty. -/
theorem generateAll_abort_no_result_witness :
    exportLoop failRaster allElems (List.range (totalPages cards19)) =
      Except.error "boom" ∧
    handleGenerateAll true failRaster allElems cards19 [] = [] :=
  ⟨rfl, generateAll_abort_no_result true failRaster allElems cards19 [] "boom" rfl⟩

/-- C5: on a fully successful export of a nonempty collection the result
is the rasterization of every page index in ascending order — one image
per page — and its length is exactly `max 1 (ceil(length / 9))`. -/
theorem generateAll_success (raster : Nat → RasterResult) (elem : Nat → Bool)
    (f : Nat → ImageRef) (allCards : Cards) (prev : List ImageRef)
    (hcards : allCards.length ≠ 0)
    (helem : ∀ i, elem i = true)
    (hraster : ∀ i, raster i = Except.ok (f i)) :
    handleGenerateAll true raster elem allCards prev =
      (List.range (totalPages allCards)).map f ∧
    (handleGenerateAll true raster elem allCards prev).length =
      max 1 ((allCards.length + 8) / 9) := by
  have h1 : handleGenerateAll true raster elem allCards prev =
      (List.range (totalPages allCards)).map f := by
    unfold handleGenerateAll
    rw [if_neg (by decide), if_neg hcards, exportLoop_ok raster elem f helem hraster]
  refine ⟨h1, ?_⟩
  rw [h1, List.length_map, List.length_range]
  rfl

/-- C5 witness: exporting the 19-slot collection yields 3 page images. -/
theorem generateAll_success_witness :
    cards19.length ≠ 0 ∧
    (handleGenerateAll true okRaster allElems cards19 [] =
        (List.range (totalPages cards19)).map constImg ∧
      (handleGenerateAll true okRaster allElems cards19 []).length =
        max 1 ((cards19.length + 8) / 9)) :=
  ⟨by decide, generateAll_success okRaster allElems constImg cards19 []
    (by decide) (fun _ => rfl) (fun _ => rfl)⟩

/-- Helper: clearing an already-clear timer does not change the state. -/
theorem update_tp_idem (s : GestureState) (ht : s.timerPending = false) :
    ({ s with timerPending := false } : GestureState) = s := by
  obtain ⟨ds, tp, sx, sy, pi, px, py, idr, ipm, cp, ac⟩ := s
  rw [show tp = false from ht]

/-- Helper: before activation, a delivered move either leaves the state
unchanged or merely clears the long-press timer. -/
theorem step_move_not_dragging (s : GestureState) (e : GEvent)
    (he : isMoveEvent e = true) (hd : s.isDraggingRef = false) :
    step s e = s ∨ step s e = { s with timerPending := false } := by
  cases e with
  | touchStart x y idx => simp [isMoveEvent] at he
  | mouseDown x y idx => simp [isMoveEvent] at he
  | timerFire => simp [isMoveEvent] at he
  | pointerUp x y hit => simp [isMoveEvent] at he
  | mouseMove x y =>
    left
    show (if s.isDraggingRef = true then
      (if s.isPreviewMode = true then s else moveDrag s x y) else s) = s
    rw [hd, if_neg (by decide)]
  | touchMove x y =>
    by_cases hp : s.isPreviewMode = true
    · left
      show (if s.isPreviewMode = true then s else moveDrag s x y) = s
      rw [if_pos hp]
    · have hm : step s (GEvent.touchMove x y) = moveDrag s x y := by
        show (if s.isPreviewMode = true then s else moveDrag s x y) = moveDrag s x y
        rw [if_neg hp]
      rw [hm]
      unfold moveDrag
      rw [hd, if_neg (by decide)]
      split
      · exact Or.inr rfl
      · exact Or.inl rfl

/-- Helper: running move events only, before activation, keeps the
collection, the drag state, the recorded start position, the preview flag
and the inactive drag flag unchanged (only the timer may get cleared). -/
theorem run_moves_not_dragging (pre : List GEvent) (s : GestureState)
    (hpre : ∀ e ∈ pre, isMoveEvent e = true) (hd : s.isDraggingRef = false) :
    runGesture s pre = s ∨ runGesture s pre = { s with timerPending := false } := by
  induction pre generalizing s with
  | nil => exact Or.inl rfl
  | cons e rest ih =>
    have he : isMoveEvent e = true := hpre e (List.mem_cons_self e rest)
    have hrest : ∀ x ∈ rest, isMoveEvent x = true :=
      fun x hx => hpre x (List.mem_cons_of_mem e hx)
    have hstep := step_move_not_dragging s e he hd
    rw [show runGesture s (e :: rest) = runGesture (step s e) rest from rfl]
    rcases hstep with h | h
    · rw [h]
      exact ih s hrest hd
    · rw [h]
      have hd2 : ({ s with timerPending := false } : GestureState).isDraggingRef = false := hd
      rcases ih { s with timerPending := false } hrest hd2 with h2 | h2
      · rw [h2]
        exact Or.inr rfl
      · rw [h2]
        exact Or.inr rfl

/-- Helper: with the timer clear and no drag active, every event other
than a fresh pointer-down leaves the whole state unchanged. -/
theorem step_settled (s : GestureState) (e : GEvent)
    (ht : s.timerPending = false) (hd : s.isDraggingRef = false)
    (hdown : isDownEvent e = false) : step s e = s := by
  cases e with
  | touchStart x y idx => simp [isDownEvent] at hdown
  | mouseDown x y idx => simp [isDownEvent] at hdown
  | mouseMove x y =>
    show (if s.isDraggingRef = true then
      (if s.isPreviewMode = true then s else moveDrag s x y) else s) = s
    rw [hd, if_neg (by decide)]
  | timerFire =>
    show fireTimer s = s
    unfold fireTimer
    rw [ht, if_neg (by decide)]
  | touchMove x y =>
    by_cases hp : s.isPreviewMode = true
    · show (if s.isPreviewMode = true then s else moveDrag s x y) = s
      rw [if_pos hp]
    · have hm : step s (GEvent.touchMove x y) = moveDrag s x y := by
        show (if s.isPreviewMode = true then s else moveDrag s x y) = moveDrag s x y
        rw [if_neg hp]
      rw [hm]
      unfold moveDrag
      rw [if_neg (by simp [hd])]
      split
      · exact update_tp_idem s ht
      · rfl
  | pointerUp x y hit =>
    show endDrag s x y hit = s
    unfold endDrag
    by_cases hp : s.isPreviewMode = true
    · rw [if_pos hp]
    · rw [if_neg hp]
      show (if ({ s with timerPending := false } : GestureState).isDraggingRef = true
        then _ else { s with timerPending := false }) = s
      rw [if_neg (by simp [hd])]
      exact update_tp_idem s ht

/-- Helper: a settled state (timer clear, no drag active) absorbs any
event sequence that contains no fresh pointer-down. -/
theorem run_settled (post : List GEvent) (s : GestureState)
    (ht : s.timerPending = false) (hd : s.isDraggingRef = false)
    (hpost : ∀ e ∈ post, isDownEvent e = false) :
    runGesture s post = s := by
  induction post generalizing s with
  | nil => rfl
  | cons e rest ih =>
    have he : isDownEvent e = false := hpost e (List.mem_cons_self e rest)
    have hrest : ∀ x ∈ rest, isDownEvent x = false :=
      fun x hx => hpost x (List.mem_cons_of_mem e hx)
    rw [show runGesture s (e :: rest) = runGesture (step s e) rest from rfl,
      step_settled s e ht hd he]
    exact ih s ht hd hrest

/-- C9 (amended): in a touch gesture run — press, any delivered moves,
then a touch move straying more than 10 px from the press on either axis
before the long-press timer fires, then anything but a fresh press — the
timer is cleared, the Armed-to-Dragging transition never happens, no
DragSession is created, and the collection is untouched.  (Mouse moves
before activation are not delivered to the move handler, so they cancel
nothing; see the counterexample.) -/
theorem gesture_touchmove_cancel (cards : Cards) (x0 y0 x1 y1 : Int) (idx : Nat)
    (pre post : List GEvent)
    (hpre : ∀ e ∈ pre, isMoveEvent e = true)
    (hpost : ∀ e ∈ post, isDownEvent e = false)
    (hmove : MOVE_THRESHOLD < (x1 - x0).natAbs ∨ MOVE_THRESHOLD < (y1 - y0).natAbs) :
    (cancelRun cards x0 y0 x1 y1 idx pre post).allCards = cards ∧
    (cancelRun cards x0 y0 x1 y1 idx pre post).dragState.isDragging = false ∧
    (cancelRun cards x0 y0 x1 y1 idx pre post).dragState.draggedIndex = none ∧
    (cancelRun cards x0 y0 x1 y1 idx pre post).isDraggingRef = false ∧
    (cancelRun cards x0 y0 x1 y1 idx pre post).timerPending = false := by
  have hrun : cancelRun cards x0 y0 x1 y1 idx pre post
      = runGesture (runGesture (startDrag (initGesture cards) x0 y0 idx) pre)
          (GEvent.touchMove x1 y1 :: post) := by
    unfold cancelRun runGesture
    rw [List.foldl_cons, List.foldl_append]
    rfl
  rcases run_moves_not_dragging pre (startDrag (initGesture cards) x0 y0 idx) hpre rfl
    with hm | hm
  · have hstep2 : step (startDrag (initGesture cards) x0 y0 idx) (GEvent.touchMove x1 y1)
        = if MOVE_THRESHOLD < (x1 - x0).natAbs ∨ MOVE_THRESHOLD < (y1 - y0).natAbs
          then { startDrag (initGesture cards) x0 y0 idx with timerPending := false }
          else startDrag (initGesture cards) x0 y0 idx := rfl
    have hfin : cancelRun cards x0 y0 x1 y1 idx pre post
        = { startDrag (initGesture cards) x0 y0 idx with timerPending := false } := by
      rw [hrun, hm,
        show runGesture (startDrag (initGesture cards) x0 y0 idx)
            (GEvent.touchMove x1 y1 :: post)
          = runGesture (step (startDrag (initGesture cards) x0 y0 idx)
              (GEvent.touchMove x1 y1)) post from rfl,
        hstep2, if_pos hmove]
      exact run_settled post _ rfl rfl hpost
    rw [hfin]
    exact ⟨rfl, rfl, rfl, rfl, rfl⟩
  · have hstep2 : step ({ startDrag (initGesture cards) x0 y0 idx with
          timerPending := false } : GestureState) (GEvent.touchMove x1 y1)
        = if MOVE_THRESHOLD < (x1 - x0).natAbs ∨ MOVE_THRESHOLD < (y1 - y0).natAbs
          then { startDrag (initGesture cards) x0 y0 idx with timerPending := false }
          else { startDrag (initGesture cards) x0 y0 idx with timerPending := false } := rfl
    have hfin : cancelRun cards x0 y0 x1 y1 idx pre post
        = { startDrag (initGesture cards) x0 y0 idx with timerPending := false } := by
      rw [hrun, hm,
        show runGesture ({ startDrag (initGesture cards) x0 y0 idx with
              timerPending := false } : GestureState)
            (GEvent.touchMove x1 y1 :: post)
          = runGesture (step ({ startDrag (initGesture cards) x0 y0 idx with
              timerPending := false } : GestureState) (GEvent.touchMove x1 y1)) post from rfl,
        hstep2, if_pos hmove]
      exact run_settled post _ rfl rfl hpost
    rw [hfin]
    exact ⟨rfl, rfl, rfl, rfl, rfl⟩

/-- C9 witness: a touch press at the origin, a 20 px touch move before the
timer, then the timer event and a release over slot 0: the drag never
activates and the one-slot collection is untouched. -/
theorem gesture_touchmove_cancel_witness :
    (MOVE_THRESHOLD < ((20 : Int) - 0).natAbs ∨
      MOVE_THRESHOLD < ((0 : Int) - 0).natAbs) ∧
    ((cancelRun [some "a"] 0 0 20 0 0 []
        [GEvent.timerFire, GEvent.pointerUp 20 0 (some 0)]).allCards = [some "a"] ∧
      (cancelRun [some "a"] 0 0 20 0 0 []
        [GEvent.timerFire, GEvent.pointerUp 20 0 (some 0)]).dragState.isDragging = false ∧
      (cancelRun [some "a"] 0 0 20 0 0 []
        [GEvent.timerFire, GEvent.pointerUp 20 0 (some 0)]).dragState.draggedIndex = none ∧
      (cancelRun [some "a"] 0 0 20 0 0 []
        [GEvent.timerFire, GEvent.pointerUp 20 0 (some 0)]).isDraggingRef = false ∧
      (cancelRun [some "a"] 0 0 20 0 0 []
        [GEvent.timerFire, GEvent.pointerUp 20 0 (some 0)]).timerPending = false) :=
  ⟨Or.inl (by decide),
    gesture_touchmove_cancel [some "a"] 0 0 20 0 0 []
      [GEvent.timerFire, GEvent.pointerUp 20 0 (some 0)]
      (by simp) (by decide) (Or.inl (by decide))⟩

/-- C9 counterexample: in a mouse gesture, a 100 px move before the timer
elapses is never delivered to the move handler (the wiring gates mouse
moves on an active drag), so the timer is not cleared and the
Armed-to-Dragging transition still happens: a DragSession is created. -/
theorem mouse_move_no_cancel_counterexample :
    MOVE_THRESHOLD < ((100 : Int) - 0).natAbs ∧
    (runGesture (initGesture [some "a"])
      [GEvent.mouseDown 0 0 0, GEvent.mouseMove 100 0,
        GEvent.timerFire]).dragState.isDragging = true ∧
    (runGesture (initGesture [some "a"])
      [GEvent.mouseDown 0 0 0, GEvent.mouseMove 100 0,
        GEvent.timerFire]).dragState.draggedIndex = some 0 := by
  decide

end Photocard
